import Mathlib

/-
Verification of the MorseBoard firmware (src/Morseboard.ino): a shallow
embedding of the timing-driven key state machine, the debounce filter, the
boot-time mode selection and the nested-conditional Morse decode tree, with
theorems checking the specification's claims against it.

Conventions:
  * Pin / key levels are Bool: `true` = HIGH = KEY_UP, `false` = LOW = KEY_DOWN
    (matching `#define KEY_DOWN LOW`, `#define KEY_UP HIGH`).
  * The millisecond clock is modelled as Nat.  `unsigned long` arithmetic is
    exact below 2^32; where the 32-bit width itself is at issue (claim C2) an
    explicitly reduced-mod-2^32 definition is used.
  * A buffer cell holds `none` for the C value 0 and `some s` for '.' / '-'.
-/

/-- A Morse signal element, stored as '.' or '-' in `symbolBuffer`. -/
inductive MSym
  | dot
  | dash
deriving DecidableEq, Repr

/-- The HID key names used by the sketch (from DigiKeyboard / hidkeys.h). -/
inductive HidKey
  | A | B | C | D | E | F | G | H | I | J | K | L | M
  | N | O | P | Q | R | S | T | U | V | W | X | Y | Z
  | N0 | N1 | N2 | N3 | N4 | N5 | N6 | N7 | N8 | N9
  | DOT | COMMA | SLASH | MINUS | EQUAL | SEMICOLON
  | SPACE | BACKSP | KPAD_MINUS
deriving DecidableEq, Repr

/-- One keystroke sent via DigiKeyboard.sendKeyStroke: a key and whether
MOD_SHIFT_LEFT is applied. -/
structure KS where
  key : HidKey
  shift : Bool
deriving DecidableEq, Repr

def KEY_DOWN : Bool := false

def KEY_UP : Bool := true

/-- Duration of the base unit multipliers, from the globals of the sketch. -/
def dit : Nat := 1

def dah : Nat := 3

def symbolspace : Nat := 1

def characterspace : Nat := 3

def wordspace : Nat := 7

/-- `debounceDelay = 50` from the sketch. -/
def debounceDelay : Nat := 50

/-- Read of `symbolBuffer[i]` instrumented to record the index accessed; the
continuation receives the cell value and the pair collects the output
keystroke and the list of indices read along the taken path. -/
def rd (b : Nat → Option MSym) (i : Nat)
    (k : Option MSym → Option KS × List Nat) : Option KS × List Nat :=
  let r := k (b i)
  (r.1, i :: r.2)

/-- The decode tree of `decodeSymbol`, translated branch for branch from the
nested conditionals of the source (lines 190-494).  `none` cells are the C
value 0.  Branches that the source leaves as a bare `// decode-error` comment,
or whose `sendKeyStroke` is commented out (KEY_UE at `..--`, KEY_AE at `.-.-`),
produce no keystroke.  The dead duplicate `symbolBuffer[4] == '.'` test at
source line 313 is unreachable and collapses away.  Accesses to index 6 (one
past the 6-byte array) are kept exactly where the source performs them. -/
def decodeT (b : Nat → Option MSym) : Option KS × List Nat :=
  rd b 0 fun
  | some .dot =>
    rd b 1 fun
    | none => (some ⟨.E, true⟩, [])
    | some .dot =>
      rd b 2 fun
      | none => (some ⟨.I, true⟩, [])
      | some .dot =>
        rd b 3 fun
        | none => (some ⟨.S, true⟩, [])
        | some .dot =>
          rd b 4 fun
          | none => (some ⟨.H, true⟩, [])
          | some .dot =>
            rd b 5 fun
            | none => (some ⟨.N5, false⟩, [])
            | some _ => (none, [])
          | some .dash =>
            rd b 5 fun
            | none => (some ⟨.N4, false⟩, [])
            | some _ => (none, [])
        | some .dash =>
          rd b 4 fun
          | none => (some ⟨.V, true⟩, [])
          | some .dot => (none, [])
          | some .dash =>
            rd b 5 fun
            | none => (some ⟨.N3, false⟩, [])
            | some _ => (none, [])
      | some .dash =>
        rd b 3 fun
        | none => (some ⟨.U, true⟩, [])
        | some .dot =>
          rd b 4 fun
          | none => (some ⟨.F, true⟩, [])
          | some _ => (none, [])
        | some .dash =>
          rd b 4 fun
          | none => (none, [])
          | some .dash =>
            rd b 5 fun
            | none => (some ⟨.N2, false⟩, [])
            | some _ => (none, [])
          | some .dot =>
            rd b 5 fun
            | some .dot =>
              rd b 6 fun
              | none => (some ⟨.SLASH, true⟩, [])
              | some _ => (none, [])
            | some .dash =>
              rd b 6 fun
              | none => (some ⟨.MINUS, true⟩, [])
              | some _ => (none, [])
            | none => (none, [])
    | some .dash =>
      rd b 2 fun
      | none => (some ⟨.A, true⟩, [])
      | some .dot =>
        rd b 3 fun
        | none => (some ⟨.R, true⟩, [])
        | some .dot =>
          rd b 4 fun
          | none => (some ⟨.L, true⟩, [])
          | some _ => (none, [])
        | some .dash =>
          rd b 4 fun
          | none => (none, [])
          | some .dot =>
            rd b 5 fun
            | none => (some ⟨.EQUAL, true⟩, [])
            | some .dash =>
              rd b 6 fun
              | none => (some ⟨.DOT, false⟩, [])
              | some _ => (none, [])
            | some .dot => (none, [])
          | some .dash => (none, [])
      | some .dash =>
        rd b 3 fun
        | some .dot =>
          rd b 4 fun
          | none => (some ⟨.P, true⟩, [])
          | some _ => (none, [])
        | some .dash =>
          rd b 4 fun
          | none => (some ⟨.J, true⟩, [])
          | some .dash =>
            rd b 5 fun
            | none => (some ⟨.N1, false⟩, [])
            | some _ => (none, [])
          | some .dot => (none, [])
        | none => (some ⟨.W, true⟩, [])
  | some .dash =>
    rd b 1 fun
    | none => (some ⟨.T, true⟩, [])
    | some .dot =>
      rd b 2 fun
      | some .dot =>
        rd b 3 fun
        | some .dot =>
          rd b 4 fun
          | some .dot =>
            rd b 5 fun
            | none => (some ⟨.N6, false⟩, [])
            | some .dash => (some ⟨.KPAD_MINUS, false⟩, [])
            | some .dot => (none, [])
          | some .dash =>
            rd b 5 fun
            | none => (some ⟨.EQUAL, false⟩, [])
            | some _ => (none, [])
          | none => (some ⟨.B, true⟩, [])
        | some .dash =>
          rd b 4 fun
          | none => (some ⟨.X, true⟩, [])
          | some .dot =>
            rd b 5 fun
            | none => (some ⟨.SLASH, false⟩, [])
            | some _ => (none, [])
          | some .dash =>
            rd b 5 fun
            | none => (some ⟨.X, true⟩, [])
            | some _ => (none, [])
        | none => (some ⟨.D, true⟩, [])
      | some .dash =>
        rd b 3 fun
        | some .dot =>
          rd b 4 fun
          | none => (some ⟨.C, true⟩, [])
          | some _ => (none, [])
        | some .dash =>
          rd b 4 fun
          | none => (some ⟨.Y, true⟩, [])
          | some _ => (none, [])
        | none => (some ⟨.K, true⟩, [])
      | none => (some ⟨.N, true⟩, [])
    | some .dash =>
      rd b 2 fun
      | some .dot =>
        rd b 3 fun
        | some .dot =>
          rd b 4 fun
          | some .dot =>
            rd b 5 fun
            | none => (some ⟨.N7, false⟩, [])
            | some _ => (none, [])
          | some .dash =>
            rd b 5 fun
            | some .dash =>
              rd b 6 fun
              | none => (some ⟨.COMMA, false⟩, [])
              | some _ => (none, [])
            | _ => (none, [])
          | none => (some ⟨.Z, true⟩, [])
        | some .dash =>
          rd b 4 fun
          | none => (some ⟨.Q, true⟩, [])
          | some _ => (none, [])
        | none => (some ⟨.G, true⟩, [])
      | some .dash =>
        rd b 3 fun
        | some .dot =>
          rd b 4 fun
          | some .dot =>
            rd b 5 fun
            | none => (some ⟨.N8, false⟩, [])
            | some _ => (none, [])
          | some .dash =>
            rd b 5 fun
            | none => (some ⟨.SEMICOLON, true⟩, [])
            | some _ => (none, [])
          | none => (none, [])
        | some .dash =>
          rd b 4 fun
          | some .dash =>
            rd b 5 fun
            | none => (some ⟨.N0, false⟩, [])
            | some _ => (none, [])
          | some .dot =>
            rd b 5 fun
            | none => (some ⟨.N9, false⟩, [])
            | some _ => (none, [])
          | none => (none, [])
        | none => (some ⟨.O, true⟩, [])
      | none => (some ⟨.M, true⟩, [])
  | none => (none, [])

/-- The keystroke decodeSymbol sends for a given buffer memory (none if it
falls into a decode-error branch). -/
def decodeOpt (b : Nat → Option MSym) : Option KS :=
  (decodeT b).1

/-- The indices of `symbolBuffer` that decodeSymbol reads for a given buffer
memory. -/
def decodeReads (b : Nat → Option MSym) : List Nat :=
  (decodeT b).2

/-- Buffer memory after `clearSymbolBuffer` followed by appending the symbols
of `l` in order: cells below the length hold the symbols, all later cells
(including the out-of-array cell 6, taken as ideally zero) hold 0. -/
def listMem (l : List MSym) : Nat → Option MSym :=
  fun i => l.get? i

/-- Classification of a completed key-down interval from the DOWN handler:
`keyDownInterval <= 3*ditInterval/2` with `ditInterval = base*dit`, in exact
(unbounded) natural arithmetic. -/
def ditClassify (d u : Nat) : MSym :=
  if d ≤ 3 * (u * dit) / 2 then .dot else .dash

/-- The same comparison in the 32-bit `unsigned long` arithmetic the AVR
target actually performs: every intermediate value is reduced mod 2^32. -/
def ditClassifyU32 (d u : Nat) : MSym :=
  if d % 2 ^ 32 ≤ 3 * (u * dit % 2 ^ 32) % 2 ^ 32 / 2 then .dot else .dash

/-- The state labels of the sketch's state machine. -/
inductive MState
  | IDLING
  | DOWN
  | LONGDOWN
  | RELEASE
deriving DecidableEq, Repr

/-- The global mutable state the four state handlers touch: current state,
the two timestamps, and the symbol buffer contents (the `symbol` pointer is
the length of the list). -/
structure Mach where
  state : MState
  keyDownTime : Nat
  keyUpTime : Nat
  sb : List MSym
deriving DecidableEq, Repr

/-- One pass of `loop()` through the state handler table, after debouncing:
`now` is millis(), `key` the debounced key state, `dec` the Decode flag.
Returns the new global state and the keystrokes sent during the pass,
translated from IDLING / DOWN / LONGDOWN / RELEASE in the source. -/
def step (u now : Nat) (key dec : Bool) (m : Mach) : Mach × List KS :=
  match m.state with
  | .IDLING =>
    if key = KEY_DOWN then ({ m with keyDownTime := now, state := .DOWN }, [])
    else (m, [])
  | .DOWN =>
    if key = KEY_UP then
      let m1 := { m with keyUpTime := now, state := .RELEASE }
      if m.sb.length ≠ 6 then
        match ditClassify (now - m.keyDownTime) u with
        | .dot =>
          ({ m1 with sb := m.sb ++ [.dot] },
           if dec then [] else [⟨.DOT, false⟩])
        | .dash =>
          ({ m1 with sb := m.sb ++ [.dash] },
           if dec then [] else [⟨.KPAD_MINUS, false⟩])
      else (m1, [])
    else if now - m.keyDownTime ≥ u * wordspace then
      ({ m with state := .LONGDOWN }, [⟨.BACKSP, false⟩])
    else (m, [])
  | .LONGDOWN =>
    if key = KEY_UP then ({ m with state := .IDLING }, []) else (m, [])
  | .RELEASE =>
    if key = KEY_DOWN then ({ m with keyDownTime := now, state := .DOWN }, [])
    else if now - m.keyUpTime ≥ u * characterspace ∧ m.sb ≠ [] then
      ({ m with sb := [] },
       if dec then (decodeOpt (listMem m.sb)).toList else [⟨.SPACE, false⟩])
    else if now - m.keyUpTime ≥ u * wordspace then
      ({ m with state := .IDLING },
       if dec then [⟨.SPACE, false⟩]
       else [⟨.SPACE, false⟩, ⟨.SPACE, false⟩, ⟨.SPACE, false⟩])
    else (m, [])

/-- Run the machine over a list of ticks `(now, key, dec)`, collecting the
keystrokes sent at each tick. -/
def run (u : Nat) : List (Nat × Bool × Bool) → Mach → Mach × List (List KS)
  | [], m => (m, [])
  | t :: rest, m =>
    let s := step u t.1 t.2.1 t.2.2 m
    let r := run u rest s.1
    (r.1, s.2 :: r.2)

/-- Machine state right after `setup()`: state IDLING, cleared buffer. -/
def initMach : Mach := ⟨.IDLING, 0, 0, []⟩

/-- The debounce-filter globals of `loop()`: `lastKeyState` (initially HIGH),
`lastDebounceTime` (initially 0) and the accepted `keyState` (a zero-initial
global, i.e. LOW). -/
structure DebSt where
  lastKeyState : Bool
  lastDebounceTime : Nat
  keyState : Bool
deriving DecidableEq, Repr

/-- One debounce pass of `loop()` at time `t` with raw sample `pin`:
reset the debounce timer on any raw change, and once the raw reading has
stood for more than `debounceDelay`, accept it as the new key state. -/
def debStep (t : Nat) (pin : Bool) (s : DebSt) : DebSt :=
  let ldt := if pin ≠ s.lastKeyState then t else s.lastDebounceTime
  let ks :=
    if debounceDelay < t - ldt ∧ pin ≠ s.keyState then pin else s.keyState
  ⟨pin, ldt, ks⟩

/-- The debounce state after ticks 0..n-1, where tick k samples `pl k` at
time `ml k`. -/
def debRun (ml : Nat → Nat) (pl : Nat → Bool) : Nat → DebSt
  | 0 => ⟨true, 0, false⟩
  | n + 1 => debStep (ml n) (pl n) (debRun ml pl n)

/-- Tick i commits a change of the debounced key state. -/
def acceptedAt (ml : Nat → Nat) (pl : Nat → Bool) (i : Nat) : Prop :=
  (debRun ml pl (i + 1)).keyState ≠ (debRun ml pl i).keyState

instance (ml : Nat → Nat) (pl : Nat → Bool) (i : Nat) :
    Decidable (acceptedAt ml pl i) := by
  unfold acceptedAt; infer_instance

/-- Result of `setup()`: the Decode flag, the machine state entered, the
cleared buffer, and the index of the pin sample at which the boot busy-wait
ended (0 when it never ran). -/
structure SetupRes where
  decode : Bool
  state : MState
  sb : List MSym
  waitIdx : Nat
deriving DecidableEq, Repr

/-- First sample index ≥ `start` at which the pin reads KEY_UP, searching at
most `fuel` samples (the busy-wait loop of `setup()`). -/
def findUpFrom (pins : Nat → Bool) (start : Nat) : Nat → Option Nat
  | 0 => none
  | fuel + 1 =>
    if pins start = KEY_UP then some start
    else findUpFrom pins (start + 1) fuel

/-- `setup()` (lines 591-605): clear the buffer, sample the key pin once
(sample 0); if it reads down, force Decode to 0 and busy-wait on samples
1,2,... until the pin reads released; then enter IDLING.  `d0` is whatever
value the Decode global held (its initializer, or anything the external flag
might have chosen); `fuel` bounds the wait so the model stays executable. -/
def setupM (pins : Nat → Bool) (d0 : Bool) (fuel : Nat) : Option SetupRes :=
  if pins 0 = KEY_DOWN then
    (findUpFrom pins 1 fuel).map fun i => ⟨false, .IDLING, [], i⟩
  else some ⟨d0, .IDLING, [], 0⟩

/-- The reference international Morse table for the characters the sketch's
key repertoire covers: letters A-Z (sent shifted, i.e. uppercase), digits
0-9, and the punctuation set . , ? _ + - = / : with their standard ITU
sequences and the keystroke each character corresponds to. -/
def intlMorseTable : List (List MSym × KS) :=
  [([.dot, .dash], ⟨.A, true⟩),
   ([.dash, .dot, .dot, .dot], ⟨.B, true⟩),
   ([.dash, .dot, .dash, .dot], ⟨.C, true⟩),
   ([.dash, .dot, .dot], ⟨.D, true⟩),
   ([.dot], ⟨.E, true⟩),
   ([.dot, .dot, .dash, .dot], ⟨.F, true⟩),
   ([.dash, .dash, .dot], ⟨.G, true⟩),
   ([.dot, .dot, .dot, .dot], ⟨.H, true⟩),
   ([.dot, .dot], ⟨.I, true⟩),
   ([.dot, .dash, .dash, .dash], ⟨.J, true⟩),
   ([.dash, .dot, .dash], ⟨.K, true⟩),
   ([.dot, .dash, .dot, .dot], ⟨.L, true⟩),
   ([.dash, .dash], ⟨.M, true⟩),
   ([.dash, .dot], ⟨.N, true⟩),
   ([.dash, .dash, .dash], ⟨.O, true⟩),
   ([.dot, .dash, .dash, .dot], ⟨.P, true⟩),
   ([.dash, .dash, .dot, .dash], ⟨.Q, true⟩),
   ([.dot, .dash, .dot], ⟨.R, true⟩),
   ([.dot, .dot, .dot], ⟨.S, true⟩),
   ([.dash], ⟨.T, true⟩),
   ([.dot, .dot, .dash], ⟨.U, true⟩),
   ([.dot, .dot, .dot, .dash], ⟨.V, true⟩),
   ([.dot, .dash, .dash], ⟨.W, true⟩),
   ([.dash, .dot, .dot, .dash], ⟨.X, true⟩),
   ([.dash, .dot, .dash, .dash], ⟨.Y, true⟩),
   ([.dash, .dash, .dot, .dot], ⟨.Z, true⟩),
   ([.dash, .dash, .dash, .dash, .dash], ⟨.N0, false⟩),
   ([.dot, .dash, .dash, .dash, .dash], ⟨.N1, false⟩),
   ([.dot, .dot, .dash, .dash, .dash], ⟨.N2, false⟩),
   ([.dot, .dot, .dot, .dash, .dash], ⟨.N3, false⟩),
   ([.dot, .dot, .dot, .dot, .dash], ⟨.N4, false⟩),
   ([.dot, .dot, .dot, .dot, .dot], ⟨.N5, false⟩),
   ([.dash, .dot, .dot, .dot, .dot], ⟨.N6, false⟩),
   ([.dash, .dash, .dot, .dot, .dot], ⟨.N7, false⟩),
   ([.dash, .dash, .dash, .dot, .dot], ⟨.N8, false⟩),
   ([.dash, .dash, .dash, .dash, .dot], ⟨.N9, false⟩),
   ([.dot, .dash, .dot, .dash, .dot, .dash], ⟨.DOT, false⟩),
   ([.dash, .dash, .dot, .dot, .dash, .dash], ⟨.COMMA, false⟩),
   ([.dot, .dot, .dash, .dash, .dot, .dot], ⟨.SLASH, true⟩),
   ([.dot, .dot, .dash, .dash, .dot, .dash], ⟨.MINUS, true⟩),
   ([.dot, .dash, .dot, .dash, .dot], ⟨.EQUAL, true⟩),
   ([.dash, .dot, .dot, .dot, .dot, .dash], ⟨.KPAD_MINUS, false⟩),
   ([.dash, .dot, .dot, .dot, .dash], ⟨.EQUAL, false⟩),
   ([.dash, .dot, .dot, .dash, .dot], ⟨.SLASH, false⟩),
   ([.dash, .dash, .dash, .dot, .dot, .dot], ⟨.SEMICOLON, true⟩)]

/-- Helper: a pass that changes the accepted key state requires the raw
sample to agree with the previous raw sample, to differ from the accepted
state, and the debounce timer to have expired; the new accepted state is the
sample. -/
lemma debStep_lastKeyState (t : Nat) (pin : Bool) (s : DebSt) :
    (debStep t pin s).lastKeyState = pin := rfl

lemma debStep_ldt (t : Nat) (pin : Bool) (s : DebSt) :
    (debStep t pin s).lastDebounceTime =
      if pin ≠ s.lastKeyState then t else s.lastDebounceTime := rfl

lemma debStep_keyState (t : Nat) (pin : Bool) (s : DebSt) :
    (debStep t pin s).keyState =
      if debounceDelay < t - (debStep t pin s).lastDebounceTime
          ∧ pin ≠ s.keyState
      then pin else s.keyState := rfl

lemma debStep_accept {t : Nat} {pin : Bool} {s : DebSt}
    (h : (debStep t pin s).keyState ≠ s.keyState) :
    pin = s.lastKeyState ∧ s.lastDebounceTime + debounceDelay < t
    ∧ pin ≠ s.keyState ∧ (debStep t pin s).keyState = pin := by
  by_cases hp : pin = s.lastKeyState
  · have hldt : (debStep t pin s).lastDebounceTime = s.lastDebounceTime := by
      rw [debStep_ldt, if_neg (not_not_intro hp)]
    by_cases hc : debounceDelay < t - s.lastDebounceTime ∧ pin ≠ s.keyState
    · refine ⟨hp, by omega, hc.2, ?_⟩
      rw [debStep_keyState, hldt, if_pos hc]
    · rw [debStep_keyState, hldt, if_neg hc] at h
      exact absurd rfl h
  · have hldt : (debStep t pin s).lastDebounceTime = t := by
      rw [debStep_ldt, if_pos hp]
    rw [debStep_keyState, hldt] at h
    rw [if_neg (by simp [debounceDelay])] at h
    exact absurd rfl h

/-- Helper: from the pass after a committed transition onward, either the raw
sample agrees with the accepted state, or the debounce timer is at least the
time of that transition. -/
lemma deb_inv (ml : Nat → Nat) (pl : Nat → Bool)
    (hm : ∀ a b : Nat, a ≤ b → ml a ≤ ml b) (i : Nat)
    (hi : acceptedAt ml pl i) :
    ∀ n, i + 1 ≤ n →
      (debRun ml pl n).lastKeyState = (debRun ml pl n).keyState
      ∨ ml i ≤ (debRun ml pl n).lastDebounceTime := by
  intro n hn
  induction n with
  | zero => omega
  | succ k ih =>
    rcases Nat.eq_or_lt_of_le (Nat.le_of_succ_le_succ hn) with heq | hlt
    · subst heq
      have hacc : (debStep (ml i) (pl i) (debRun ml pl i)).keyState ≠
          (debRun ml pl i).keyState := hi
      have ha := debStep_accept hacc
      left
      show (debStep (ml i) (pl i) (debRun ml pl i)).lastKeyState =
        (debStep (ml i) (pl i) (debRun ml pl i)).keyState
      rw [ha.2.2.2, debStep_lastKeyState]
    · have hIH := ih (by omega)
      by_cases hp : pl k = (debRun ml pl k).lastKeyState
      · rcases hIH with hL | hR
        · left
          have hpk : pl k = (debRun ml pl k).keyState := hp.trans hL
          show (debStep (ml k) (pl k) (debRun ml pl k)).lastKeyState =
            (debStep (ml k) (pl k) (debRun ml pl k)).keyState
          rw [debStep_lastKeyState, debStep_keyState,
            if_neg fun hcon => hcon.2 hpk]
          exact hpk
        · right
          show ml i ≤ (debStep (ml k) (pl k) (debRun ml pl k)).lastDebounceTime
          rw [debStep_ldt, if_neg (not_not_intro hp)]
          exact hR
      · right
        show ml i ≤ (debStep (ml k) (pl k) (debRun ml pl k)).lastDebounceTime
        rw [debStep_ldt, if_pos hp]
        exact hm i k (by omega)

/-- Helper: when the busy-wait search returns sample i, the pin reads
released there and read pressed at every earlier searched sample. -/
lemma findUpFrom_spec (pins : Nat → Bool) :
    ∀ fuel start i, findUpFrom pins start fuel = some i →
      pins i = KEY_UP ∧ start ≤ i ∧
        ∀ j, start ≤ j → j < i → pins j = KEY_DOWN := by
  intro fuel
  induction fuel with
  | zero => intro start i h; simp [findUpFrom] at h
  | succ n ih =>
    intro start i h
    by_cases hp : pins start = KEY_UP
    · simp [findUpFrom, hp] at h
      subst h
      exact ⟨hp, Nat.le_refl _, fun j hj1 hj2 => absurd hj2 (by omega)⟩
    · simp only [findUpFrom, if_neg hp] at h
      obtain ⟨h1, h2, h3⟩ := ih (start + 1) i h
      refine ⟨h1, by omega, fun j hj1 hj2 => ?_⟩
      rcases Nat.eq_or_lt_of_le hj1 with heq | hlt2
      · rw [← heq]
        revert hp
        cases pins start <;> simp [KEY_UP, KEY_DOWN]
      · exact h3 j (by omega) hj2

/-- Input trace for spec scenario 3 (decoding disabled, unit = 100 ms): key
pressed at t=0, released at t=120, then idle; ticks continue through the
800 ms idle gap. -/
def sc3 : List (Nat × Bool × Bool) :=
  [(0, KEY_DOWN, false), (60, KEY_DOWN, false), (120, KEY_UP, false),
   (300, KEY_UP, false), (420, KEY_UP, false), (600, KEY_UP, false),
   (820, KEY_UP, false), (900, KEY_UP, false)]

/-- Input trace for the LongDown frame-effect scenario: starting in DOWN with
one dot already buffered and the key held since t=0, the key stays down past
the word gap, is released, pressed again for a short dot, and released. -/
def sc10 : List (Nat × Bool × Bool) :=
  [(800, KEY_DOWN, true), (900, KEY_UP, true), (1000, KEY_DOWN, true),
   (1080, KEY_UP, true), (1400, KEY_UP, true)]

/-- C1: the decode tree reproduces the reference international assignments for
every character of its repertoire except the colon: the canonical colon
sequence dah dah dah dit dit dit falls into a decode-error branch and emits
nothing, while the non-canonical sequence dah dah dah dit dah emits the
shifted-semicolon (colon) keystroke; every other table entry decodes to
exactly its keystroke, letters shifted (uppercase). -/
theorem c1_colon_divergence :
    decodeOpt (listMem [.dash, .dash, .dash, .dot, .dot, .dot]) = none
    ∧ decodeOpt (listMem [.dash, .dash, .dash, .dot, .dash]) =
        some ⟨.SEMICOLON, true⟩
    ∧ ((intlMorseTable.filter fun p =>
          decide (p.1 ≠ [MSym.dash, .dash, .dash, .dot, .dot, .dot])).all
        fun p => decide (decodeOpt (listMem p.1) = some p.2)) = true
    ∧ (intlMorseTable.all
        fun p => decide (decodeOpt (listMem p.1) = some p.2)) = false := by
  decide

/-- C2 counterexample: at unit = 2^31 the 32-bit computation of the threshold
3*ditInterval/2 wraps, so the duration d = 2^31, which satisfies
d ≤ 1.5 x unit over the rationals, is classified as Dah. -/
theorem c2_overflow_counterexample :
    ditClassifyU32 (2 ^ 31) (2 ^ 31) = MSym.dash
    ∧ ((2 ^ 31 : ℚ) ≤ 3 / 2 * 2 ^ 31) := by
  refine ⟨by decide, by norm_num⟩

/-- C2 (amended): for every unit > 0 with 3 x unit < 2^32 and every duration
d < 2^32, the completed key-down interval is classified Dot iff
d ≤ 1.5 x unit over the rationals, and the 32-bit computation agrees with the
exact integer computation 3*ditInterval/2. -/
theorem c2_dit_classification (d u : Nat) (hu : 0 < u) (hd : d < 2 ^ 32)
    (h3 : 3 * u < 2 ^ 32) :
    (ditClassifyU32 d u = MSym.dot ↔ (d : ℚ) ≤ 3 / 2 * u)
    ∧ ditClassifyU32 d u = ditClassify d u := by
  have hu32 : u < 2 ^ 32 := by omega
  have h1 : u * dit = u := by simp [dit]
  have hkey : d ≤ 3 * u / 2 ↔ (d : ℚ) ≤ 3 / 2 * u := by
    rw [Nat.le_div_iff_mul_le (by norm_num : 0 < 2)]
    constructor
    · intro h
      have h2 : ((d * 2 : Nat) : ℚ) ≤ ((3 * u : Nat) : ℚ) := by exact_mod_cast h
      push_cast at h2
      linarith
    · intro h
      have h2 : ((d * 2 : Nat) : ℚ) ≤ ((3 * u : Nat) : ℚ) := by push_cast; linarith
      exact_mod_cast h2
  unfold ditClassifyU32 ditClassify
  rw [h1, Nat.mod_eq_of_lt hd, Nat.mod_eq_of_lt hu32, Nat.mod_eq_of_lt h3]
  refine ⟨⟨fun hdit => ?_, fun hq => ?_⟩, rfl⟩
  · by_cases hle : d ≤ 3 * u / 2
    · exact hkey.1 hle
    · rw [if_neg hle] at hdit
      exact absurd hdit (by decide)
  · rw [if_pos (hkey.2 hq)]

/-- C2 witness: the amended classification theorem applied at the concrete
press of the end-to-end scenarios, d = 120 ms, unit = 100 ms. -/
theorem c2_dit_classification_witness :
    (0 < 100 ∧ 120 < 2 ^ 32 ∧ 3 * 100 < 2 ^ 32)
    ∧ ((ditClassifyU32 120 100 = MSym.dot ↔ (120 : ℚ) ≤ 3 / 2 * 100)
       ∧ ditClassifyU32 120 100 = ditClassify 120 100) :=
  ⟨⟨by norm_num, by norm_num, by norm_num⟩,
   c2_dit_classification 120 100 (by norm_num) (by norm_num) (by norm_num)⟩

/-- C3 counterexample: with decoding disabled and unit = 100 ms, the 120 ms
press of scenario sc3 emits the raw Dot keystroke (120 ≤ 150 = 3*100/2), not
the Dash keystroke, and the following 800 ms idle gap produces four space
keystrokes (one at the character-gap timeout, three at the word-gap timeout),
not exactly one. -/
theorem c3_raw_mode_counterexample :
    (run 100 sc3 initMach).2.flatten =
      [⟨.DOT, false⟩, ⟨.SPACE, false⟩, ⟨.SPACE, false⟩, ⟨.SPACE, false⟩,
       ⟨.SPACE, false⟩]
    ∧ (⟨.KPAD_MINUS, false⟩ : KS) ∉ (run 100 sc3 initMach).2.flatten
    ∧ (run 100 sc3 initMach).2.flatten.count ⟨.SPACE, false⟩ = 4 := by
  decide

/-- C3 (amended): with decoding disabled and unit = 100 ms, a single 120 ms
key-down followed by key-up emits the raw Dot keystroke immediately on the
release tick with no gap-timeout wait; during the subsequent 800 ms idle gap
the character-gap timeout (300 ms) emits one space keystroke and clears the
buffer, and the word-gap timeout (700 ms) then emits three further space
keystrokes and returns the machine to Idling. -/
theorem c3_raw_mode_amended :
    (run 100 sc3 initMach).2 =
      [[], [], [⟨.DOT, false⟩], [], [⟨.SPACE, false⟩], [],
       [⟨.SPACE, false⟩, ⟨.SPACE, false⟩, ⟨.SPACE, false⟩], []]
    ∧ (run 100 sc3 initMach).1.state = MState.IDLING := by
  decide

/-- C4: the sequence dah dit dit dah dah is not in the reference international
table, yet decoding it emits the shifted X keystroke (a duplicated copy of the
dah dit dit dah branch); by contrast the all-dots prefix of the international
error sequence is silently dropped as the claim describes. -/
theorem c4_unmapped_divergence :
    decodeOpt (listMem [.dash, .dot, .dot, .dash, .dash]) = some ⟨.X, true⟩
    ∧ [MSym.dash, .dot, .dot, .dash, .dash] ∉ intlMorseTable.map Prod.fst
    ∧ decodeOpt (listMem [.dot, .dot, .dot, .dot, .dot, .dot]) = none := by
  decide

/-- C5: in DOWN with the key still held and the held time at least
wordGap = 7 x unit, the pass emits exactly the Backspace keystroke and moves
to LONGDOWN, changing nothing else; in LONGDOWN every pass with the key held
emits nothing and changes nothing, and the pass at release emits nothing and
returns to IDLING. -/
theorem c5_longdown (u now : Nat) (dec : Bool) (m : Mach) :
    (m.state = MState.DOWN → now - m.keyDownTime ≥ u * wordspace →
      step u now KEY_DOWN dec m =
        ({ m with state := .LONGDOWN }, [⟨.BACKSP, false⟩]))
    ∧ (m.state = MState.LONGDOWN → step u now KEY_DOWN dec m = (m, []))
    ∧ (m.state = MState.LONGDOWN →
        step u now KEY_UP dec m = ({ m with state := .IDLING }, [])) := by
  refine ⟨fun h1 h2 => ?_, fun h => ?_, fun h => ?_⟩
  · simp [step, h1, KEY_DOWN, KEY_UP, h2]
  · simp [step, h, KEY_DOWN, KEY_UP]
  · simp [step, h, KEY_UP]

/-- C5 witness: the LongDown theorem applied with unit = 100 ms to a machine
that has held the key for 800 ms, then to the resulting LongDown state while
still held, then at release. -/
theorem c5_longdown_witness :
    step 100 800 KEY_DOWN true ⟨.DOWN, 0, 0, [.dot]⟩ =
      (⟨.LONGDOWN, 0, 0, [.dot]⟩, [⟨.BACKSP, false⟩])
    ∧ step 100 900 KEY_DOWN true ⟨.LONGDOWN, 0, 0, [.dot]⟩ =
        (⟨.LONGDOWN, 0, 0, [.dot]⟩, [])
    ∧ step 100 950 KEY_UP true ⟨.LONGDOWN, 0, 0, [.dot]⟩ =
        (⟨.IDLING, 0, 0, [.dot]⟩, []) :=
  ⟨(c5_longdown 100 800 true ⟨.DOWN, 0, 0, [.dot]⟩).1 rfl (by decide),
   (c5_longdown 100 900 true ⟨.LONGDOWN, 0, 0, [.dot]⟩).2.1 rfl,
   (c5_longdown 100 950 true ⟨.LONGDOWN, 0, 0, [.dot]⟩).2.2 rfl⟩

/-- C6: a step never grows the symbol buffer beyond 6; when the buffer is
already full, the append attempted on key release leaves it unchanged and
emits nothing; and at the next character-gap timeout the decode runs on the
(possibly truncated) buffered sequence and clears it. -/
theorem c6_buffer_bound (u now : Nat) (key dec : Bool) (m : Mach)
    (h : m.sb.length ≤ 6) :
    ((step u now key dec m).1.sb.length ≤ 6)
    ∧ (m.state = MState.DOWN → key = KEY_UP → m.sb.length = 6 →
        (step u now key dec m).1.sb = m.sb ∧ (step u now key dec m).2 = [])
    ∧ (m.state = MState.RELEASE → key = KEY_UP →
        now - m.keyUpTime ≥ u * characterspace → m.sb ≠ [] → dec = true →
        (step u now key dec m).2 = (decodeOpt (listMem m.sb)).toList
        ∧ (step u now key dec m).1.sb = []) := by
  obtain ⟨st, kdt, kut, sb⟩ := m
  refine ⟨?_, fun h1 h2 h3 => ?_, fun h1 h2 h3 h4 h5 => ?_⟩
  · cases st <;> simp only [step] <;> (repeat' split) <;> simp_all <;> omega
  · simp only at h1 h3
    subst h1 h2
    simp [step, KEY_UP, h3]
  · simp only at h1 h4
    subst h1 h2 h5
    simp [step, KEY_UP, KEY_DOWN, h3, h4]

/-- C6 witness: the buffer-bound theorem applied to a full six-symbol buffer
on key release (drop with no output), and to a two-dot buffer at the
character-gap timeout (decode of the buffered sequence and clear). -/
theorem c6_buffer_bound_witness :
    ((step 100 120 KEY_UP true
        ⟨.DOWN, 0, 0, [.dot, .dot, .dot, .dot, .dot, .dot]⟩).1.sb =
      [.dot, .dot, .dot, .dot, .dot, .dot]
     ∧ (step 100 120 KEY_UP true
          ⟨.DOWN, 0, 0, [.dot, .dot, .dot, .dot, .dot, .dot]⟩).2 = [])
    ∧ ((step 100 700 KEY_UP true ⟨.RELEASE, 0, 120, [.dot, .dot]⟩).2 =
        (decodeOpt (listMem [.dot, .dot])).toList
       ∧ (step 100 700 KEY_UP true ⟨.RELEASE, 0, 120, [.dot, .dot]⟩).1.sb = []) :=
  ⟨(c6_buffer_bound 100 120 KEY_UP true
      ⟨.DOWN, 0, 0, [.dot, .dot, .dot, .dot, .dot, .dot]⟩ (by decide)).2.1
      rfl rfl (by decide),
   (c6_buffer_bound 100 700 KEY_UP true
      ⟨.RELEASE, 0, 120, [.dot, .dot]⟩ (by decide)).2.2
      rfl rfl (by decide) (by decide) rfl⟩

/-- C7: whenever the boot-time pin sample reads pressed and the busy-wait
terminates, setup() returns Decode = false regardless of the initial flag
value, enters IDLING with a cleared buffer, and the wait ended at the first
sample at which the pin read released (every earlier sample read pressed). -/
theorem c7_boot_override (pins : Nat → Bool) (d0 : Bool) (fuel : Nat)
    (r : SetupRes) (hboot : pins 0 = KEY_DOWN)
    (hr : setupM pins d0 fuel = some r) :
    r.decode = false ∧ r.state = MState.IDLING ∧ r.sb = []
    ∧ pins r.waitIdx = KEY_UP ∧ 1 ≤ r.waitIdx
    ∧ ∀ j, 1 ≤ j → j < r.waitIdx → pins j = KEY_DOWN := by
  unfold setupM at hr
  rw [if_pos hboot] at hr
  cases hfind : findUpFrom pins 1 fuel with
  | none => rw [hfind] at hr; simp at hr
  | some i =>
    rw [hfind] at hr
    simp only [Option.map_some', Option.some.injEq] at hr
    obtain ⟨h1, h2, h3⟩ := findUpFrom_spec pins fuel 1 i hfind
    subst hr
    exact ⟨rfl, rfl, rfl, h1, h2, h3⟩

/-- C7 witness: the boot-override theorem applied to a pin trace that reads
pressed at boot, stays pressed for one more sample and releases at sample 2,
with the Decode global initially true. -/
theorem c7_boot_override_witness :
    ((fun i => decide (2 ≤ i)) 0 = KEY_DOWN
     ∧ setupM (fun i => decide (2 ≤ i)) true 5 =
        some ⟨false, .IDLING, [], 2⟩)
    ∧ ((⟨false, .IDLING, [], 2⟩ : SetupRes).decode = false
       ∧ (⟨false, .IDLING, [], 2⟩ : SetupRes).state = MState.IDLING
       ∧ (⟨false, .IDLING, [], 2⟩ : SetupRes).sb = []
       ∧ (fun i => decide (2 ≤ i)) (⟨false, .IDLING, [], 2⟩ : SetupRes).waitIdx
           = KEY_UP
       ∧ 1 ≤ (⟨false, .IDLING, [], 2⟩ : SetupRes).waitIdx
       ∧ ∀ j, 1 ≤ j → j < (⟨false, .IDLING, [], 2⟩ : SetupRes).waitIdx →
           (fun i => decide (2 ≤ i)) j = KEY_DOWN) :=
  ⟨⟨by decide, by decide⟩,
   c7_boot_override (fun i => decide (2 ≤ i)) true 5 ⟨false, .IDLING, [], 2⟩
     (by decide) (by decide)⟩

/-- C8: two committed transitions of the debounced key state are always
separated by more than the 50 ms debounce delay, whatever the raw samples do
in between (the clock ml is monotone; in particular this holds for
consecutive accepted transitions). -/
theorem c8_debounce_window (ml : Nat → Nat) (pl : Nat → Bool)
    (hm : ∀ a b : Nat, a ≤ b → ml a ≤ ml b) (i j : Nat) (hij : i < j)
    (hi : acceptedAt ml pl i) (hj : acceptedAt ml pl j) :
    ml i + debounceDelay < ml j := by
  have hinv := deb_inv ml pl hm i hi j (by omega)
  have hacc : (debStep (ml j) (pl j) (debRun ml pl j)).keyState ≠
      (debRun ml pl j).keyState := hj
  have ha := debStep_accept hacc
  obtain ⟨hpin, hldt, hne, _⟩ := ha
  rcases hinv with hL | hR
  · exact absurd (hpin.trans hL) hne
  · omega

/-- C8 witness: the debounce-window theorem on a concrete trace sampled every
60 ms whose raw pin goes up for two samples and then down, committing
transitions at ticks 1 and 3. -/
theorem c8_debounce_window_witness :
    ((∀ a b : Nat, a ≤ b → 60 * a ≤ 60 * b)
     ∧ (1 : Nat) < 3
     ∧ acceptedAt (fun n => 60 * n) (fun n => decide (n < 2)) 1
     ∧ acceptedAt (fun n => 60 * n) (fun n => decide (n < 2)) 3)
    ∧ (fun n => 60 * n) 1 + debounceDelay < (fun n => 60 * n) 3 :=
  ⟨⟨fun a b h => Nat.mul_le_mul_left 60 h, by decide, by decide, by decide⟩,
   c8_debounce_window (fun n => 60 * n) (fun n => decide (n < 2))
     (fun a b h => Nat.mul_le_mul_left 60 h) 1 3 (by decide) (by decide)
     (by decide)⟩

/-- C9: decoding a full six-symbol buffer holding dit dit dah dah dit dit
(the question-mark sequence) reads index 6 of the six-element symbolBuffer,
one past its end. -/
theorem c9_oob_read :
    6 ∈ decodeReads (listMem [.dot, .dot, .dash, .dash, .dot, .dot])
    ∧ decodeOpt (listMem [.dot, .dot, .dash, .dash, .dot, .dot]) =
        some ⟨.SLASH, true⟩ := by
  decide

/-- C10: the Backspace-emitting transition out of DOWN and every pass through
LONGDOWN leave the symbol buffer untouched, and (scenario sc10) a dot
buffered before a long press is still buffered after the machine returns to
Idling and is included in the decode at the following character-gap timeout,
which yields I (dit dit) rather than E (dit). -/
theorem c10_frame (u now : Nat) (key dec : Bool) (m : Mach) :
    (m.state = MState.DOWN → key = KEY_DOWN →
      now - m.keyDownTime ≥ u * wordspace →
      (step u now key dec m).1.sb = m.sb)
    ∧ (m.state = MState.LONGDOWN → (step u now key dec m).1.sb = m.sb)
    ∧ (run 100 sc10 ⟨.DOWN, 0, 0, [.dot]⟩).2 =
        [[⟨.BACKSP, false⟩], [], [], [], [⟨.I, true⟩]] := by
  refine ⟨fun h1 h2 h3 => ?_, fun h => ?_, by decide⟩
  · subst h2
    simp [step, h1, KEY_DOWN, KEY_UP, h3]
  · have hstep : step u now key dec m =
        if key = KEY_UP then ({ m with state := .IDLING }, []) else (m, []) := by
      simp [step, h]
    rw [hstep]
    split <;> rfl

/-- C10 witness: the frame theorem applied to the Backspace transition at
800 ms held time and to a LongDown pass, both with one dot buffered. -/
theorem c10_frame_witness :
    (step 100 800 KEY_DOWN true ⟨.DOWN, 0, 0, [.dot]⟩).1.sb = [.dot]
    ∧ (step 100 900 KEY_DOWN true ⟨.LONGDOWN, 0, 0, [.dot]⟩).1.sb = [.dot] :=
  ⟨(c10_frame 100 800 KEY_DOWN true ⟨.DOWN, 0, 0, [.dot]⟩).1 rfl rfl (by decide),
   (c10_frame 100 900 KEY_DOWN true ⟨.LONGDOWN, 0, 0, [.dot]⟩).2.1 rfl⟩
